import Mathlib

/-!
A verification development for the Oak Runtime core
(`src/oak_runtime/src/lib.rs`).

The Runtime is embedded shallowly: the runtime state visible to a single
calling Node (its `NodeInfo`, the channel store, the introspection event
queue and the `terminating` flag) is an explicit state record, and each
Runtime operation is a pure function threading that record.  Machine
integers (handles, channel ids, tags) are modelled as `Nat`; the random
handle sampler is modelled as a deterministic choice of an unused value.

Pieces of the repository that the operations use but that are not part of
`lib.rs` (the `oak_abi` label algebra and the `channel.rs` channel
internals) are modelled from the specification; each such definition says
so in its doc comment.
-/

deriving instance DecidableEq for Except

namespace OakRuntime

/-- Tags are opaque values with structural equality (spec section 4.1);
modelled as naturals. -/
abbrev Tag := Nat

/-- Modelled from the spec: `oak_abi::label::top` is not under `src/`.
A distinguished tag representing the maximum of the lattice. -/
def topTag : Tag := 0

/-- Modelled from the spec: the `Label` type lives in the `oak_abi` crate,
which is not under `src/`.  A label is a pair of a confidentiality tag
collection and an integrity tag collection (spec section 3). -/
structure Label where
  confidentiality_tags : List Tag
  integrity_tags : List Tag
deriving DecidableEq

/-- Boolean set-inclusion of tag collections. -/
def tag_subset (a b : List Tag) : Bool :=
  a.all (fun t => b.contains t)

/-- Modelled from the spec: `flows_to` lives in the `oak_abi` crate, which is
not under `src/`.  Spec section 3: `L1.flows_to(L2)` iff
`L1.C` is a subset of `L2.C` and `L2.I` is a subset of `L1.I`. -/
def Label.flows_to (l1 l2 : Label) : Bool :=
  tag_subset l1.confidentiality_tags l2.confidentiality_tags &&
  tag_subset l2.integrity_tags l1.integrity_tags

/-- Modelled from the spec: the "public untrusted" label is the pair of
empty tag sets (spec section 3). -/
def Label.public_untrusted : Label :=
  { confidentiality_tags := [], integrity_tags := [] }

/-- The downgrading privilege of a Node (`NodePrivilege` in `lib.rs`).
The Rust `HashSet<Tag>` fields are modelled as lists used with set
semantics (membership only). -/
structure NodePrivilege where
  can_declassify_confidentiality_tags : List Tag
  can_endorse_integrity_tags : List Tag
deriving DecidableEq

/-- `NodePrivilege::downgrade_label` from `lib.rs`: if the privilege holds
the `top` tag every confidentiality tag is removed, otherwise exactly the
declassifiable ones are; all endorsable integrity tags are added. -/
def NodePrivilege.downgrade_label (p : NodePrivilege) (label : Label) : Label :=
  let has_top_privilege := p.can_declassify_confidentiality_tags.contains topTag
  let confidentiality_tags :=
    if has_top_privilege then
      []
    else
      label.confidentiality_tags.filter
        (fun t => !(p.can_declassify_confidentiality_tags.contains t))
  { confidentiality_tags := confidentiality_tags,
    integrity_tags :=
      label.integrity_tags ++ p.can_endorse_integrity_tags }

/-- `Downgrading` from `lib.rs`: whether an operation applies the calling
Node's downgrade privilege. -/
inductive Downgrading where
  | No
  | Yes
deriving DecidableEq

/-- The `OakStatus` error codes used by the Runtime core. -/
inductive OakStatus where
  | ErrBadHandle
  | ErrInvalidArgs
  | ErrChannelClosed
  | ErrPermissionDenied
  | ErrTerminated
  | ErrInternal
deriving DecidableEq

/-- The per-channel statuses returned by `channel_status` and
`wait_on_channels`. -/
inductive ChannelReadStatus where
  | NotReady
  | ReadReady
  | Orphaned
  | PermissionDenied
  | InvalidChannel
deriving DecidableEq

/-- Direction of a channel half (`ChannelHalfDirection` in `channel.rs`,
re-exported by `lib.rs`). -/
inductive ChannelHalfDirection where
  | Read
  | Write
deriving DecidableEq

/-- Modelled from the spec: `ChannelHalf` lives in `channel.rs`, which is
not under `src/`.  A half is a reference to a channel plus an immutable
direction (spec section 3); the Rust `Arc<Channel>` becomes a channel id
into the runtime's channel store. -/
structure ChannelHalf where
  channel_id : Nat
  direction : ChannelHalfDirection
deriving DecidableEq

/-- Modelled from the spec: the runtime-internal `Message` lives in
`message.rs`, which is not under `src/`.  Spec section 3: data bytes plus
an ordered sequence of channel halves. -/
structure Message where
  data : List Nat
  channels : List ChannelHalf
deriving DecidableEq

/-- The node-facing message (`NodeMessage`): bytes plus per-node handles. -/
structure NodeMessage where
  bytes : List Nat
  handles : List Nat
deriving DecidableEq

/-- Helper types from `lib.rs` indicating whether a channel read succeeded
or needs larger capacities (`NodeReadStatus`). -/
inductive NodeReadStatus where
  | Success (msg : NodeMessage)
  | NeedsCapacity (bytes : Nat) (handles : Nat)
deriving DecidableEq

/-- Modelled from the spec: the `Channel` record lives in `channel.rs`,
which is not under `src/`.  Spec section 3: a label, a FIFO of messages,
reader/writer counts and a waiter set (waiters modelled as thread
tokens). -/
structure Channel where
  label : Label
  messages : List Message
  reader_count : Nat
  writer_count : Nat
  waiters : List Nat
deriving DecidableEq

/-- Modelled from the spec: `Channel::has_readers` is in `channel.rs` (not
under `src/`); spec I3: a zero reader count means orphaned in the read
direction. -/
def Channel.has_readers (c : Channel) : Bool :=
  decide (0 < c.reader_count)

/-- Modelled from the spec: `Channel::has_writers` is in `channel.rs` (not
under `src/`); spec I3: a zero writer count means orphaned in the write
direction. -/
def Channel.has_writers (c : Channel) : Bool :=
  decide (0 < c.writer_count)

/-- The per-node runtime state (`NodeInfo` in `lib.rs`), restricted to the
fields the Runtime operations consult: the node's label, its privilege and
its ABI handle table (the Rust `HashMap` becomes an association list). -/
structure NodeInfo where
  label : Label
  privilege : NodePrivilege
  abi_handles : List (Nat × ChannelHalf)
deriving DecidableEq

/-- Introspection events (`introspection_events` protos) plus the waiter
unparks performed by `wake_waiters`, recorded as a single observable
trace. -/
inductive Event where
  | ChannelCreated (channel_id : Nat) (label : Label)
  | HandleCreated (handle : Nat) (channel_id : Nat)
      (direction : ChannelHalfDirection)
  | HandleDestroyed (handle : Nat) (channel_id : Nat)
      (direction : ChannelHalfDirection)
  | MessageEnqueued (channel_id : Nat) (included_handles : List Nat)
  | MessageDequeued (channel_id : Nat) (acquired_handles : List Nat)
  | WaiterWoken (token : Nat)
deriving DecidableEq

/-- The Runtime state as seen by one calling Node: the `terminating` flag,
the channel-id counter, the channel store, the caller's `NodeInfo` and the
introspection event queue.  All Runtime operations in `lib.rs` touch only
the calling node's entry of `node_infos`, so a single `NodeInfo` suffices
(the `node_id` lookups with `expect` become direct field access). -/
structure RT where
  terminating : Bool
  next_channel_id : Nat
  channels : List (Nat × Channel)
  node : NodeInfo
  events : List Event
deriving DecidableEq

/-- Association-list lookup for the ABI handle table. -/
def lookupHandle (handles : List (Nat × ChannelHalf)) (k : Nat) :
    Option ChannelHalf :=
  match handles with
  | [] => none
  | (k', v) :: rest => if k' = k then some v else lookupHandle rest k

/-- Association-list lookup for the channel store. -/
def lookupChannel (channels : List (Nat × Channel)) (id : Nat) :
    Option Channel :=
  match channels with
  | [] => none
  | (k, c) :: rest => if k = id then some c else lookupChannel rest id

/-- Replace the channel stored under `id` (used to model in-place mutation
through the Rust `Arc`). -/
def updateChannel (channels : List (Nat × Channel)) (id : Nat)
    (c : Channel) : List (Nat × Channel) :=
  channels.map (fun p => if p.1 = id then (id, c) else p)

/-- Append one event to the introspection queue
(`Runtime::introspection_event`). -/
def emit (rt : RT) (e : Event) : RT :=
  { rt with events := rt.events ++ [e] }

/-- The keys of the handle table. -/
def handleKeys (handles : List (Nat × ChannelHalf)) : List Nat :=
  handles.map Prod.fst

/-- The value sampler inside `Runtime::new_abi_handle`: the Rust code
samples random 64-bit values, retrying while the candidate collides with
an existing handle; the net effect is an arbitrary unused value, modelled
deterministically as one more than the largest key in use. -/
def fresh_abi_handle_value (handles : List (Nat × ChannelHalf)) : Nat :=
  (handleKeys handles).foldr Nat.max 0 + 1

/-- `Runtime::new_abi_handle`: register a half under a fresh handle value
in the calling node's table and emit `HandleCreated`. -/
def new_abi_handle (rt : RT) (half : ChannelHalf) : Nat × RT :=
  let candidate := fresh_abi_handle_value rt.node.abi_handles
  let rt' := { rt with
    node := { rt.node with
      abi_handles := (candidate, half) :: rt.node.abi_handles } }
  (candidate, emit rt' (.HandleCreated candidate half.channel_id half.direction))

/-- `Runtime::abi_to_half`: convert an ABI handle to a channel half via the
calling node's handle table. -/
def abi_to_half (rt : RT) (handle : Nat) : Except OakStatus ChannelHalf :=
  match lookupHandle rt.node.abi_handles handle with
  | some half => .ok half
  | none => .error .ErrBadHandle

/-- `Runtime::abi_to_read_half`: as `abi_to_half`, but fail unless the half
has Read direction. -/
def abi_to_read_half (rt : RT) (handle : Nat) : Except OakStatus ChannelHalf :=
  match abi_to_half rt handle with
  | .error e => .error e
  | .ok half =>
    match half.direction with
    | .Read => .ok half
    | .Write => .error .ErrBadHandle

/-- `Runtime::abi_to_write_half`: as `abi_to_half`, but fail unless the
half has Write direction. -/
def abi_to_write_half (rt : RT) (handle : Nat) : Except OakStatus ChannelHalf :=
  match abi_to_half rt handle with
  | .error e => .error e
  | .ok half =>
    match half.direction with
    | .Read => .error .ErrBadHandle
    | .Write => .ok half

/-- Modelled from the spec: `with_reader_channel` lives in `channel.rs`,
which is not under `src/`.  It runs a body against the underlying channel
when the half has Read direction and fails with `ErrBadHandle` otherwise;
here it returns the channel value for the caller to use. -/
def reader_channel (rt : RT) (half : ChannelHalf) : Except OakStatus Channel :=
  match half.direction with
  | .Write => .error .ErrBadHandle
  | .Read =>
    match lookupChannel rt.channels half.channel_id with
    | some c => .ok c
    | none => .error .ErrBadHandle

/-- Modelled from the spec: `with_writer_channel` lives in `channel.rs`,
which is not under `src/`.  Symmetric to `reader_channel` for the Write
direction. -/
def writer_channel (rt : RT) (half : ChannelHalf) : Except OakStatus Channel :=
  match half.direction with
  | .Read => .error .ErrBadHandle
  | .Write =>
    match lookupChannel rt.channels half.channel_id with
    | some c => .ok c
    | none => .error .ErrBadHandle

/-- `Runtime::get_reader_channel_label`. -/
def get_reader_channel_label (rt : RT) (half : ChannelHalf) :
    Except OakStatus Label :=
  match reader_channel rt half with
  | .ok c => .ok c.label
  | .error e => .error e

/-- `Runtime::get_writer_channel_label`. -/
def get_writer_channel_label (rt : RT) (half : ChannelHalf) :
    Except OakStatus Label :=
  match writer_channel rt half with
  | .ok c => .ok c.label
  | .error e => .error e

/-- `Runtime::get_node_label` for the calling node. -/
def get_node_label (rt : RT) : Label :=
  rt.node.label

/-- `Runtime::get_node_privilege` for the calling node. -/
def get_node_privilege (rt : RT) : NodePrivilege :=
  rt.node.privilege

/-- `Runtime::get_node_downgraded_label`. -/
def get_node_downgraded_label (rt : RT) (initial_label : Label) : Label :=
  (get_node_privilege rt).downgrade_label initial_label

/-- `Runtime::get_effective_label`: apply the downgrade privilege to
`initial_label` when requested. -/
def get_effective_label (rt : RT) (initial_label : Label)
    (downgrade : Downgrading) : Label :=
  match downgrade with
  | .Yes => get_node_downgraded_label rt initial_label
  | .No => initial_label

/-- `Runtime::validate_can_read_from_label`: the effective (possibly
downgraded) source label must flow to the node's label. -/
def validate_can_read_from_label (rt : RT) (source_label : Label)
    (downgrade : Downgrading) : Except OakStatus Unit :=
  let target_label := get_node_label rt
  let effective_label := get_effective_label rt source_label downgrade
  if effective_label.flows_to target_label then
    .ok ()
  else
    .error .ErrPermissionDenied

/-- `Runtime::validate_can_read_from_channel`. -/
def validate_can_read_from_channel (rt : RT) (half : ChannelHalf)
    (downgrade : Downgrading) : Except OakStatus Unit :=
  match get_reader_channel_label rt half with
  | .error e => .error e
  | .ok channel_label => validate_can_read_from_label rt channel_label downgrade

/-- `Runtime::validate_can_write_to_label`: the effective (possibly
downgraded) node label must flow to the target label. -/
def validate_can_write_to_label (rt : RT) (target_label : Label)
    (downgrade : Downgrading) : Except OakStatus Unit :=
  let original_label := get_node_label rt
  let effective_label := get_effective_label rt original_label downgrade
  if effective_label.flows_to target_label then
    .ok ()
  else
    .error .ErrPermissionDenied

/-- `Runtime::validate_can_write_to_channel`. -/
def validate_can_write_to_channel (rt : RT) (half : ChannelHalf)
    (downgrade : Downgrading) : Except OakStatus Unit :=
  match get_writer_channel_label rt half with
  | .error e => .error e
  | .ok channel_label => validate_can_write_to_label rt channel_label downgrade

/-- `Runtime::channel_create`: reject when terminating; check that the
caller may write both to "public untrusted" and to the new channel's
label; allocate a fresh channel id, build the channel with one half of
each direction (half construction increments the corresponding count,
spec section 3), emit `ChannelCreated`, then install the write half and
the read half in the caller's handle table. -/
def channel_create (rt : RT) (label : Label) (downgrade : Downgrading) :
    Except OakStatus (Nat × Nat) × RT :=
  if rt.terminating then
    (.error .ErrTerminated, rt)
  else
    match validate_can_write_to_label rt Label.public_untrusted downgrade with
    | .error e => (.error e, rt)
    | .ok () =>
      match validate_can_write_to_label rt label downgrade with
      | .error e => (.error e, rt)
      | .ok () =>
        let channel_id := rt.next_channel_id
        let channel : Channel :=
          { label := label, messages := [], reader_count := 1,
            writer_count := 1, waiters := [] }
        let write_half : ChannelHalf := ⟨channel_id, .Write⟩
        let read_half : ChannelHalf := ⟨channel_id, .Read⟩
        let rt := { rt with
          next_channel_id := channel_id + 1,
          channels := (channel_id, channel) :: rt.channels }
        let rt := emit rt (.ChannelCreated channel_id label)
        let (write_handle, rt) := new_abi_handle rt write_half
        let (read_handle, rt) := new_abi_handle rt read_half
        (.ok (write_handle, read_handle), rt)

/-- `Runtime::message_from`: translate the node-relative handles embedded
in a `NodeMessage` into channel halves via the caller's handle table. -/
def message_from (rt : RT) (node_msg : NodeMessage) :
    Except OakStatus Message :=
  match node_msg.handles.mapM (fun handle => abi_to_half rt handle) with
  | .error e => .error e
  | .ok channels => .ok { data := node_msg.bytes, channels := channels }

/-- Modelled from the spec: `wake_waiters` lives in `channel.rs`, which is
not under `src/`.  Spec section 4.2: unpark every registered waiter; an
unpark is recorded as a `WaiterWoken` event, and the tokens stay
registered (spec section 9, open questions: stale tokens are tolerated). -/
def wake_waiters (rt : RT) (c : Channel) : RT :=
  { rt with events := rt.events ++ c.waiters.map Event.WaiterWoken }

/-- `Runtime::channel_write`: resolve the write half, IFC-check, build the
`MessageEnqueued` event details, translate embedded handles, then enqueue
(failing with `ErrChannelClosed` when the channel has no readers, waking
all waiters otherwise); the `MessageEnqueued` event is emitted after the
enqueue attempt, regardless of its result. -/
def channel_write (rt : RT) (write_handle : Nat) (node_msg : NodeMessage)
    (downgrade : Downgrading) : Except OakStatus Unit × RT :=
  match abi_to_write_half rt write_handle with
  | .error e => (.error e, rt)
  | .ok half =>
    match validate_can_write_to_channel rt half downgrade with
    | .error e => (.error e, rt)
    | .ok () =>
      let event_details := Event.MessageEnqueued half.channel_id node_msg.handles
      match message_from rt node_msg with
      | .error e => (.error e, rt)
      | .ok msg =>
        let (result, rt) :=
          match writer_channel rt half with
          | .error e => ((.error e : Except OakStatus Unit), rt)
          | .ok channel =>
            if !channel.has_readers then
              (.error .ErrChannelClosed, rt)
            else
              let channel' := { channel with messages := channel.messages ++ [msg] }
              let rt := { rt with
                channels := updateChannel rt.channels half.channel_id channel' }
              let rt := wake_waiters rt channel'
              (.ok (), rt)
        (result, emit rt event_details)

/-- One step of the handle-installing fold inside
`Runtime::node_message_from`. -/
def nmf_step (acc : List Nat × RT) (half : ChannelHalf) : List Nat × RT :=
  let (handle, rt') := new_abi_handle acc.2 half
  (acc.1 ++ [handle], rt')

/-- `Runtime::node_message_from`: translate a runtime `Message` into a
`NodeMessage`, installing each embedded half under a fresh ABI handle in
the receiving node's table. -/
def node_message_from (rt : RT) (msg : Message) : NodeMessage × RT :=
  let (handles, rt') := msg.channels.foldl nmf_step ([], rt)
  ({ bytes := msg.data, handles := handles }, rt')

/-- `Runtime::channel_read`: resolve the read half, IFC-check, then pop
the front message if any (emitting `MessageDequeued` and translating the
embedded halves into the caller's table); on an empty queue fail with
`ErrChannelClosed` when the channel has no writers and return `none`
otherwise. -/
def channel_read (rt : RT) (read_handle : Nat) (downgrade : Downgrading) :
    Except OakStatus (Option NodeMessage) × RT :=
  match abi_to_read_half rt read_handle with
  | .error e => (.error e, rt)
  | .ok half =>
    match validate_can_read_from_channel rt half downgrade with
    | .error e => (.error e, rt)
    | .ok () =>
      match reader_channel rt half with
      | .error e => (.error e, rt)
      | .ok channel =>
        match channel.messages with
        | [] =>
          if !channel.has_writers then
            (.error .ErrChannelClosed, rt)
          else
            (.ok none, rt)
        | m :: rest =>
          let rt := { rt with
            channels := updateChannel rt.channels half.channel_id
              { channel with messages := rest } }
          let (node_msg, rt) := node_message_from rt m
          let rt := emit rt (.MessageDequeued half.channel_id node_msg.handles)
          (.ok (some node_msg), rt)

/-- `Runtime::channel_status`: a permission-denied IFC check is reported
as the successful status `PermissionDenied` (any other validation error is
discarded, and the subsequent channel access reports it); otherwise
`ReadReady` when a message is queued, `Orphaned` when the queue is empty
with no writers, `NotReady` when the queue is empty with writers. -/
def channel_status (rt : RT) (half : ChannelHalf) (downgrade : Downgrading) :
    Except OakStatus ChannelReadStatus :=
  if validate_can_read_from_channel rt half downgrade
      = .error .ErrPermissionDenied then
    .ok .PermissionDenied
  else
    match reader_channel rt half with
    | .error e => .error e
    | .ok channel =>
      .ok
        (if channel.messages.head?.isSome then
          .ReadReady
        else if !channel.has_writers then
          .Orphaned
        else
          .NotReady)

/-- `Runtime::channel_try_read_message`: as `channel_read`, but first peek
the front message and report `NeedsCapacity` with the required byte and
handle counts, leaving the message queued, when either capacity is
insufficient. -/
def channel_try_read_message (rt : RT) (handle : Nat)
    (bytes_capacity : Nat) (handles_capacity : Nat)
    (downgrade : Downgrading) : Except OakStatus (Option NodeReadStatus) × RT :=
  match abi_to_read_half rt handle with
  | .error e => (.error e, rt)
  | .ok half =>
    match validate_can_read_from_channel rt half downgrade with
    | .error e => (.error e, rt)
    | .ok () =>
      match reader_channel rt half with
      | .error e => (.error e, rt)
      | .ok channel =>
        match channel.messages with
        | [] =>
          if !channel.has_writers then
            (.error .ErrChannelClosed, rt)
          else
            (.ok none, rt)
        | front :: rest =>
          let req_bytes_capacity := front.data.length
          let req_handles_capacity := front.channels.length
          if req_bytes_capacity > bytes_capacity
              ∨ req_handles_capacity > handles_capacity then
            (.ok (some (.NeedsCapacity req_bytes_capacity req_handles_capacity)),
              rt)
          else
            let rt := { rt with
              channels := updateChannel rt.channels half.channel_id
                { channel with messages := rest } }
            let (message, rt) := node_message_from rt front
            let rt := emit rt (.MessageDequeued half.channel_id message.handles)
            (.ok (some (.Success message)), rt)

/-- `Runtime::readers_statuses`: the per-channel statuses of a list of
read halves, with errors collapsed to `InvalidChannel`. -/
def readers_statuses (rt : RT) (readers : List ChannelHalf)
    (downgrade : Downgrading) : List ChannelReadStatus :=
  readers.map (fun half =>
    match channel_status rt half downgrade with
    | .ok s => s
    | .error _ => .InvalidChannel)

/-- The handle-resolution prologue of `Runtime::wait_on_channels`: the
enumerated read handles that resolve to read halves, with their original
positions (the Rust `enumerate` loop becomes recursion on the list with an
index counter). -/
def resolve_readers (rt : RT) : List Nat → Nat → List (Nat × ChannelHalf)
  | [], _ => []
  | handle :: rest, i =>
    match abi_to_read_half rt handle with
    | .ok half => (i, half) :: resolve_readers rt rest (i + 1)
    | .error _ => resolve_readers rt rest (i + 1)

/-- The waiter-registration step of `Runtime::wait_on_channels`: add the
current thread's token to the waiter set of every resolved channel; a
failing `with_reader_channel` propagates its error as in the source. -/
def register_waiters (rt : RT) (readers : List ChannelHalf) (token : Nat) :
    Except OakStatus RT :=
  match readers with
  | [] => .ok rt
  | half :: rest =>
    match half.direction with
    | .Write => .error .ErrBadHandle
    | .Read =>
      match lookupChannel rt.channels half.channel_id with
      | none => .error .ErrBadHandle
      | some c =>
        let c' := { c with waiters := c.waiters ++ [token] }
        register_waiters
          { rt with channels := updateChannel rt.channels half.channel_id c' }
          rest token

/-- The status-transcription step of `Runtime::wait_on_channels`: start
from `InvalidChannel` in every slot and copy each valid channel's status
back to its original position. -/
def transcribe (len : Nat) (positions : List Nat)
    (statuses : List ChannelReadStatus) : List ChannelReadStatus :=
  (positions.zip statuses).foldl
    (fun acc p => acc.set p.1 p.2)
    (List.replicate len ChannelReadStatus.InvalidChannel)

/-- The outcome of one iteration of the `wait_on_channels` loop: either
the function returns (a status vector or an error such as
`ErrTerminated`), or the calling thread parks awaiting a wake-up. -/
inductive WaitOutcome where
  | result (r : Except OakStatus (List ChannelReadStatus))
  | parked (statuses : List ChannelReadStatus)
deriving DecidableEq

/-- `Runtime::wait_on_channels`, modelled as a single iteration of its
loop: the loop's `thread::park()` is represented by the `parked` outcome,
since further progress depends on other threads.  Handles are resolved
first; if the Runtime is terminating the call returns `ErrTerminated`;
otherwise the thread is registered as a waiter on every valid channel,
statuses are computed and transcribed to the original positions, and the
call returns unless every valid status is `NotReady`, the handle list is
non-empty and all handles resolved. -/
def wait_on_channels (rt : RT) (read_handles : List Nat)
    (downgrade : Downgrading) (token : Nat) : WaitOutcome × RT :=
  let resolved := resolve_readers rt read_handles 0
  let readers := resolved.map Prod.snd
  if rt.terminating then
    (.result (.error .ErrTerminated), rt)
  else
    match register_waiters rt readers token with
    | .error e => (.result (.error e), rt)
    | .ok rt' =>
      let statuses := readers_statuses rt' readers downgrade
      let all_statuses := transcribe read_handles.length
        (resolved.map Prod.fst) statuses
      let all_not_ready := statuses.all (fun s => s = .NotReady)
      if !all_not_ready || read_handles.isEmpty
          || decide (readers.length ≠ read_handles.length) then
        (.result (.ok all_statuses), rt')
      else
        (.parked all_statuses, rt')

/-- The status-relevant view of a channel: its label, queue and counts
(everything except the waiter set). -/
def chanView (c : Channel) : Label × List Message × Nat × Nat :=
  (c.label, c.messages, c.reader_count, c.writer_count)

/-- Whether an event is a `MessageEnqueued` introspection event. -/
def is_message_enqueued : Event → Bool
  | .MessageEnqueued _ _ => true
  | _ => false

/-- Number of `MessageEnqueued` events in a trace. -/
def count_enqueued (events : List Event) : Nat :=
  events.countP is_message_enqueued

/-! Concrete states used by counterexamples and witnesses. -/

/-- A node labelled public-untrusted whose privilege may declassify tag 1. -/
def rtC1 : RT :=
  { terminating := false, next_channel_id := 0, channels := [],
    node := { label := Label.public_untrusted,
              privilege := ⟨[1], []⟩, abi_handles := [] },
    events := [] }

/-- A public-untrusted node holding a read handle 5 and a write handle 6
onto channel 0. -/
def nodeW : NodeInfo :=
  { label := Label.public_untrusted, privilege := ⟨[], []⟩,
    abi_handles := [(5, ⟨0, .Read⟩), (6, ⟨0, .Write⟩)] }

/-- A public-untrusted channel with the given queue, counts and waiters. -/
def chanW (msgs : List Message) (rc wc : Nat) (ws : List Nat) : Channel :=
  { label := Label.public_untrusted, messages := msgs, reader_count := rc,
    writer_count := wc, waiters := ws }

/-- A runtime whose single node `nodeW` talks to channel 0, set up with
the given queue, counts and waiters. -/
def rtW (msgs : List Message) (rc wc : Nat) (ws : List Nat) : RT :=
  { terminating := false, next_channel_id := 1,
    channels := [(0, chanW msgs rc wc ws)], node := nodeW, events := [] }

end OakRuntime

namespace OakRuntime

/-! Helper lemmas. -/

theorem tag_subset_iff (a b : List Tag) :
    tag_subset a b = true ↔ ∀ t ∈ a, t ∈ b := by
  simp [tag_subset]

theorem flows_to_iff (l1 l2 : Label) :
    l1.flows_to l2 = true ↔
      (tag_subset l1.confidentiality_tags l2.confidentiality_tags = true ∧
       tag_subset l2.integrity_tags l1.integrity_tags = true) := by
  simp [Label.flows_to]

theorem abi_to_read_half_direction (rt : RT) (h : Nat) (half : ChannelHalf)
    (hok : abi_to_read_half rt h = .ok half) : half.direction = .Read := by
  unfold abi_to_read_half at hok
  rcases habi : abi_to_half rt h with e | half'
  · rw [habi] at hok
    simp at hok
  · rw [habi] at hok
    cases hd : half'.direction with
    | Read =>
      simp [hd] at hok
      subst hok
      exact hd
    | Write =>
      simp [hd] at hok

theorem abi_to_write_half_direction (rt : RT) (h : Nat) (half : ChannelHalf)
    (hok : abi_to_write_half rt h = .ok half) : half.direction = .Write := by
  unfold abi_to_write_half at hok
  rcases habi : abi_to_half rt h with e | half'
  · rw [habi] at hok
    simp at hok
  · rw [habi] at hok
    cases hd : half'.direction with
    | Read =>
      simp [hd] at hok
    | Write =>
      simp [hd] at hok
      subst hok
      exact hd

theorem reader_channel_of_read (rt : RT) (half : ChannelHalf) (c : Channel)
    (hdir : half.direction = .Read)
    (hc : lookupChannel rt.channels half.channel_id = some c) :
    reader_channel rt half = .ok c := by
  simp [reader_channel, hdir, hc]

theorem writer_channel_of_write (rt : RT) (half : ChannelHalf) (c : Channel)
    (hdir : half.direction = .Write)
    (hc : lookupChannel rt.channels half.channel_id = some c) :
    writer_channel rt half = .ok c := by
  simp [writer_channel, hdir, hc]

theorem updateChannel_cons (k' : Nat) (c : Channel)
    (rest : List (Nat × Channel)) (id : Nat) (c' : Channel) :
    updateChannel ((k', c) :: rest) id c'
      = (if k' = id then (id, c') else (k', c)) :: updateChannel rest id c' :=
  rfl

theorem lookupChannel_update_ne (chans : List (Nat × Channel)) (id k : Nat)
    (c' : Channel) (h : k ≠ id) :
    lookupChannel (updateChannel chans id c') k = lookupChannel chans k := by
  induction chans with
  | nil => rfl
  | cons p rest ih =>
    obtain ⟨k', c⟩ := p
    rw [updateChannel_cons]
    by_cases h1 : k' = id
    · subst h1
      rw [if_pos rfl]
      show (if k' = k then some c' else lookupChannel (updateChannel rest k' c') k)
        = lookupChannel ((k', c) :: rest) k
      show (if k' = k then some c' else lookupChannel (updateChannel rest k' c') k)
        = (if k' = k then some c else lookupChannel rest k)
      rw [if_neg (Ne.symm h), if_neg (Ne.symm h), ih]
    · rw [if_neg h1]
      show (if k' = k then some c else lookupChannel (updateChannel rest id c') k)
        = (if k' = k then some c else lookupChannel rest k)
      by_cases h2 : k' = k
      · rw [if_pos h2, if_pos h2]
      · rw [if_neg h2, if_neg h2, ih]

theorem lookupChannel_update_self (chans : List (Nat × Channel)) (id : Nat)
    (c c' : Channel) (h : lookupChannel chans id = some c) :
    lookupChannel (updateChannel chans id c') id = some c' := by
  induction chans with
  | nil => simp [lookupChannel] at h
  | cons p rest ih =>
    obtain ⟨k', c0⟩ := p
    rw [updateChannel_cons]
    by_cases h1 : k' = id
    · subst h1
      rw [if_pos rfl]
      show (if k' = k' then some c' else lookupChannel (updateChannel rest k' c') k')
        = some c'
      rw [if_pos rfl]
    · rw [if_neg h1]
      show (if k' = id then some c0 else lookupChannel (updateChannel rest id c') id)
        = some c'
      rw [if_neg h1]
      apply ih
      have h' : (if k' = id then some c0 else lookupChannel rest id) = some c := h
      rwa [if_neg h1] at h'

theorem nmf_fold_channels (l : List ChannelHalf) :
    ∀ acc : List Nat × RT,
      ((l.foldl nmf_step acc).2).channels = acc.2.channels := by
  induction l with
  | nil => intro acc; rfl
  | cons h t ih =>
    intro acc
    rw [List.foldl_cons, ih]
    rfl

theorem nmf_fold_length (l : List ChannelHalf) :
    ∀ acc : List Nat × RT,
      ((l.foldl nmf_step acc).1).length = acc.1.length + l.length := by
  induction l with
  | nil => intro acc; simp
  | cons h t ih =>
    intro acc
    rw [List.foldl_cons, ih]
    simp [nmf_step, new_abi_handle]
    omega

theorem node_message_from_channels (rt : RT) (msg : Message) :
    ((node_message_from rt msg).2).channels = rt.channels := by
  have h := nmf_fold_channels msg.channels ([], rt)
  rcases he : msg.channels.foldl nmf_step ([], rt) with ⟨hs, rt'⟩
  rw [he] at h
  simp only [node_message_from, he]
  simpa using h

theorem node_message_from_bytes (rt : RT) (msg : Message) :
    ((node_message_from rt msg).1).bytes = msg.data := by
  rcases he : msg.channels.foldl nmf_step ([], rt) with ⟨hs, rt'⟩
  simp [node_message_from, he]

theorem node_message_from_handles_length (rt : RT) (msg : Message) :
    ((node_message_from rt msg).1).handles.length = msg.channels.length := by
  have h := nmf_fold_length msg.channels ([], rt)
  rcases he : msg.channels.foldl nmf_step ([], rt) with ⟨hs, rt'⟩
  rw [he] at h
  simp at h
  simp [node_message_from, he, h]

theorem count_enqueued_append (a b : List Event) :
    count_enqueued (a ++ b) = count_enqueued a + count_enqueued b := by
  simp [count_enqueued, List.countP_append]

theorem count_enqueued_wakes (l : List Nat) :
    count_enqueued (l.map Event.WaiterWoken) = 0 := by
  induction l with
  | nil => rfl
  | cons t rest ih =>
    simp [count_enqueued, List.countP_cons, is_message_enqueued, ih]

theorem le_foldr_max (l : List Nat) (k : Nat) (h : k ∈ l) :
    k ≤ l.foldr Nat.max 0 := by
  induction l with
  | nil => cases h
  | cons a t ih =>
    rcases List.mem_cons.mp h with h | h
    · subst h
      exact Nat.le_max_left _ _
    · exact Nat.le_trans (ih h) (Nat.le_max_right _ _)

theorem lookupHandle_none_of_gt (tbl : List (Nat × ChannelHalf)) (k : Nat)
    (h : ∀ k' ∈ handleKeys tbl, k' < k) : lookupHandle tbl k = none := by
  induction tbl with
  | nil => rfl
  | cons p rest ih =>
    obtain ⟨k', v⟩ := p
    have hk' : k' < k := h k' (by simp [handleKeys])
    have hne : k' ≠ k := Nat.ne_of_lt hk'
    simp only [lookupHandle, if_neg hne]
    exact ih (fun a ha => h a (by simp [handleKeys] at ha ⊢; exact Or.inr ha))

theorem fresh_abi_handle_value_unused (tbl : List (Nat × ChannelHalf)) :
    lookupHandle tbl (fresh_abi_handle_value tbl) = none := by
  apply lookupHandle_none_of_gt
  intro k' hk'
  have h := le_foldr_max (handleKeys tbl) k' hk'
  simp only [fresh_abi_handle_value]
  omega

theorem fresh_abi_handle_value_cons_ne (k0 : Nat) (v : ChannelHalf)
    (tbl : List (Nat × ChannelHalf)) :
    fresh_abi_handle_value ((k0, v) :: tbl) ≠ k0 := by
  have h1 : k0 ≤ Nat.max k0 ((handleKeys tbl).foldr Nat.max 0) :=
    Nat.le_max_left _ _
  have h2 : fresh_abi_handle_value ((k0, v) :: tbl)
      = Nat.max k0 ((handleKeys tbl).foldr Nat.max 0) + 1 := rfl
  omega

theorem validate_can_write_ok_or_denied (rt : RT) (L : Label)
    (d : Downgrading) :
    validate_can_write_to_label rt L d = .ok () ∨
    validate_can_write_to_label rt L d = .error .ErrPermissionDenied := by
  unfold validate_can_write_to_label
  by_cases h :
      (get_effective_label rt (get_node_label rt) d).flows_to L = true
  · left
    simp [h]
  · right
    simp only [Bool.not_eq_true] at h
    simp [h]

theorem foldl_set_length (ps : List (Nat × ChannelReadStatus)) :
    ∀ acc : List ChannelReadStatus,
      (ps.foldl (fun a p => a.set p.1 p.2) acc).length = acc.length := by
  induction ps with
  | nil => intro acc; rfl
  | cons p t ih =>
    intro acc
    rw [List.foldl_cons, ih]
    exact List.length_set acc p.1 p.2

theorem transcribe_length (len : Nat) (pos : List Nat)
    (sts : List ChannelReadStatus) : (transcribe len pos sts).length = len := by
  unfold transcribe
  rw [foldl_set_length]
  exact List.length_replicate len _

theorem foldl_set_getD_not_mem (ps : List (Nat × ChannelReadStatus)) :
    ∀ (acc : List ChannelReadStatus) (i : Nat), i ∉ ps.map Prod.fst →
      (ps.foldl (fun a p => a.set p.1 p.2) acc).getD i .InvalidChannel
        = acc.getD i .InvalidChannel := by
  induction ps with
  | nil => intro acc i _; rfl
  | cons p t ih =>
    intro acc i hmem
    have hp : p.1 ≠ i := by
      intro hEq
      exact hmem (by simp [hEq.symm])
    have ht : i ∉ t.map Prod.fst := fun hh => hmem (by simp; right; simpa using hh)
    rw [List.foldl_cons, ih _ i ht]
    simp only [List.getD_eq_getElem?_getD]
    rw [List.getElem?_set_ne hp]

theorem transcribe_getD_not_mem (len : Nat) (pos : List Nat)
    (sts : List ChannelReadStatus) (i : Nat)
    (hlen : pos.length ≤ sts.length) (hmem : i ∉ pos) :
    (transcribe len pos sts).getD i .InvalidChannel = .InvalidChannel := by
  unfold transcribe
  rw [foldl_set_getD_not_mem]
  · rcases Nat.lt_or_ge i len with hi | hi
    · simp [List.getD_eq_getElem?_getD, List.getElem?_replicate_of_lt hi]
    · have hnone : (List.replicate len ChannelReadStatus.InvalidChannel)[i]?
          = none := by
        apply List.getElem?_eq_none
        simpa using hi
      simp [List.getD_eq_getElem?_getD, hnone]
  · rwa [List.map_fst_zip pos sts hlen]

theorem resolve_readers_pos_mem (rt : RT) (l : List Nat) :
    ∀ (i0 : Nat) (p : Nat × ChannelHalf), p ∈ resolve_readers rt l i0 →
      i0 ≤ p.1 ∧ p.1 - i0 < l.length ∧
        abi_to_read_half rt (l.getD (p.1 - i0) 0) = .ok p.2 := by
  induction l with
  | nil => intro i0 p hp; simp [resolve_readers] at hp
  | cons h t ih =>
    intro i0 p hp
    rcases habi : abi_to_read_half rt h with e | half
    · rw [resolve_readers, habi] at hp
      obtain ⟨h1, h2, h3⟩ := ih (i0 + 1) p hp
      refine ⟨by omega, by simp; omega, ?_⟩
      have hsub : p.1 - i0 = (p.1 - (i0 + 1)) + 1 := by omega
      rw [hsub]
      simpa using h3
    · rw [resolve_readers, habi] at hp
      rcases List.mem_cons.mp hp with hp | hp
      · subst hp
        refine ⟨Nat.le_refl _, by simp, ?_⟩
        simpa using habi
      · obtain ⟨h1, h2, h3⟩ := ih (i0 + 1) p hp
        refine ⟨by omega, by simp; omega, ?_⟩
        have hsub : p.1 - i0 = (p.1 - (i0 + 1)) + 1 := by omega
        rw [hsub]
        simpa using h3

theorem resolve_readers_length_le (rt : RT) (l : List Nat) :
    ∀ i0 : Nat, (resolve_readers rt l i0).length ≤ l.length := by
  induction l with
  | nil => intro i0; simp [resolve_readers]
  | cons h t ih =>
    intro i0
    rcases habi : abi_to_read_half rt h with e | half <;>
      simp [resolve_readers, habi]
    · exact Nat.le_succ_of_le (ih (i0 + 1))
    · exact ih (i0 + 1)

theorem resolve_readers_length_lt (rt : RT) (l : List Nat) :
    ∀ (i0 j : Nat), j < l.length →
      (∀ half : ChannelHalf,
        abi_to_read_half rt (l.getD j 0) ≠ .ok half) →
      (resolve_readers rt l i0).length < l.length := by
  induction l with
  | nil => intro i0 j hj _; simp at hj
  | cons h t ih =>
    intro i0 j hj hbad
    cases j with
    | zero =>
      rcases habi : abi_to_read_half rt h with e | half
      · rw [resolve_readers, habi]
        have := resolve_readers_length_le rt t (i0 + 1)
        simp
        omega
      · exact absurd habi (by simpa using hbad half)
    | succ j' =>
      have hj' : j' < t.length := by simpa using hj
      have hbad' : ∀ half : ChannelHalf,
          abi_to_read_half rt (t.getD j' 0) ≠ .ok half := by
        simpa using hbad
      rcases habi : abi_to_read_half rt h with e | half <;>
        rw [resolve_readers, habi]
      · have := ih (i0 + 1) j' hj' hbad'
        simp
        omega
      · have := ih (i0 + 1) j' hj' hbad'
        simp
        omega

theorem register_waiters_ok (readers : List ChannelHalf) :
    ∀ (rt : RT) (token : Nat),
      (∀ h ∈ readers, h.direction = .Read) →
      (∀ h ∈ readers,
        (lookupChannel rt.channels h.channel_id).isSome = true) →
      ∃ rt', register_waiters rt readers token = .ok rt' ∧
        rt'.node = rt.node ∧
        (∀ cid, (lookupChannel rt'.channels cid).map chanView
          = (lookupChannel rt.channels cid).map chanView) := by
  induction readers with
  | nil =>
    intro rt token _ _
    exact ⟨rt, rfl, rfl, fun cid => rfl⟩
  | cons h t ih =>
    intro rt token hdir hsome
    have hd : h.direction = .Read := hdir h (List.mem_cons_self h t)
    have hs := hsome h (List.mem_cons_self h t)
    rcases hlc : lookupChannel rt.channels h.channel_id with _ | c
    · rw [hlc] at hs
      simp at hs
    · set rt1 : RT := { rt with channels := updateChannel rt.channels h.channel_id { c with waiters := c.waiters ++ [token] } } with hrt1
      have hch1 : rt1.channels = updateChannel rt.channels h.channel_id { c with waiters := c.waiters ++ [token] } := rfl
      have hview1 : ∀ cid, (lookupChannel rt1.channels cid).map chanView
          = (lookupChannel rt.channels cid).map chanView := by
        intro cid
        rw [hch1]
        by_cases hid : cid = h.channel_id
        · subst hid
          rw [lookupChannel_update_self rt.channels h.channel_id c ({ c with waiters := c.waiters ++ [token] }) hlc, hlc]
          rfl
        · rw [lookupChannel_update_ne _ _ _ _ hid]
      have hsome1 : ∀ h' ∈ t,
          (lookupChannel rt1.channels h'.channel_id).isSome = true := by
        intro h' hm
        have hv := hview1 h'.channel_id
        have hs' := hsome h' (List.mem_cons_of_mem h hm)
        rcases hx : lookupChannel rt.channels h'.channel_id with _ | cx
        · rw [hx] at hs'
          simp at hs'
        · rw [hx] at hv
          rcases hy : lookupChannel rt1.channels h'.channel_id with _ | cy
          · rw [hy] at hv
            simp at hv
          · simp
      obtain ⟨rt', hreg, hnode', hview'⟩ := ih rt1 token
        (fun h' hm => hdir h' (List.mem_cons_of_mem h hm)) hsome1
      refine ⟨rt', ?_, hnode', fun cid => (hview' cid).trans (hview1 cid)⟩
      simp only [register_waiters, hd, hlc]
      exact hreg

theorem channel_status_congr (rt rt' : RT) (half : ChannelHalf)
    (d : Downgrading)
    (hnode : rt'.node = rt.node)
    (hview : (lookupChannel rt'.channels half.channel_id).map chanView
      = (lookupChannel rt.channels half.channel_id).map chanView) :
    channel_status rt' half d = channel_status rt half d := by
  cases hdir : half.direction with
  | Write =>
    have hval : ∀ rtx : RT,
        validate_can_read_from_channel rtx half d = .error .ErrBadHandle := by
      intro rtx
      simp [validate_can_read_from_channel, get_reader_channel_label,
        reader_channel, hdir]
    simp [channel_status, hval, reader_channel, hdir]
  | Read =>
    rcases hl : lookupChannel rt.channels half.channel_id with _ | c
    · rw [hl] at hview
      rcases hl' : lookupChannel rt'.channels half.channel_id with _ | c'
      · simp [channel_status, validate_can_read_from_channel,
          get_reader_channel_label, reader_channel, hdir, hl, hl']
      · rw [hl'] at hview
        simp at hview
    · rcases hl' : lookupChannel rt'.channels half.channel_id with _ | c'
      · rw [hl, hl'] at hview
        simp at hview
      · rw [hl, hl'] at hview
        have hcomp : c'.label = c.label ∧ c'.messages = c.messages ∧
            c'.reader_count = c.reader_count ∧
            c'.writer_count = c.writer_count := by
          simpa [chanView, Prod.ext_iff] using hview
        obtain ⟨hlab, hmsg, _, hwcnt⟩ := hcomp
        simp [channel_status, validate_can_read_from_channel,
          get_reader_channel_label, reader_channel, hdir, hl, hl',
          validate_can_read_from_label, get_node_label, get_effective_label,
          get_node_downgraded_label, get_node_privilege, hnode, hlab, hmsg,
          hwcnt, Channel.has_writers]

theorem readers_statuses_congr (rt rt' : RT) (readers : List ChannelHalf)
    (d : Downgrading)
    (hnode : rt'.node = rt.node)
    (hview : ∀ cid, (lookupChannel rt'.channels cid).map chanView
      = (lookupChannel rt.channels cid).map chanView) :
    readers_statuses rt' readers d = readers_statuses rt readers d := by
  unfold readers_statuses
  apply List.map_congr_left
  intro half _
  rw [channel_status_congr rt rt' half d hnode (hview half.channel_id)]

theorem wait_on_channels_eq (rt : RT) (read_handles : List Nat)
    (d : Downgrading) (token : Nat) (rt' : RT)
    (hterm : rt.terminating = false)
    (hreg : register_waiters rt
        ((resolve_readers rt read_handles 0).map Prod.snd) token = .ok rt') :
    wait_on_channels rt read_handles d token =
      (if !((readers_statuses rt'
            ((resolve_readers rt read_handles 0).map Prod.snd) d).all
              (fun s => s = .NotReady))
          || read_handles.isEmpty
          || decide (((resolve_readers rt read_handles 0).map Prod.snd).length
              ≠ read_handles.length) then
        (.result (.ok (transcribe read_handles.length
          ((resolve_readers rt read_handles 0).map Prod.fst)
          (readers_statuses rt'
            ((resolve_readers rt read_handles 0).map Prod.snd) d))), rt')
      else
        (.parked (transcribe read_handles.length
          ((resolve_readers rt read_handles 0).map Prod.fst)
          (readers_statuses rt'
            ((resolve_readers rt read_handles 0).map Prod.snd) d)), rt')) := by
  simp only [wait_on_channels, hterm, hreg, Bool.false_eq_true, if_false]

/-- Membership characterization of `downgrade_label` (shared helper). -/
theorem downgrade_label_mem (p : NodePrivilege) (L : Label) :
    (p.can_declassify_confidentiality_tags.contains topTag = true →
      (p.downgrade_label L).confidentiality_tags = []) ∧
    (p.can_declassify_confidentiality_tags.contains topTag = false →
      ∀ t : Tag, t ∈ (p.downgrade_label L).confidentiality_tags ↔
        (t ∈ L.confidentiality_tags ∧
          t ∉ p.can_declassify_confidentiality_tags)) ∧
    (∀ t : Tag, t ∈ (p.downgrade_label L).integrity_tags ↔
      (t ∈ L.integrity_tags ∨ t ∈ p.can_endorse_integrity_tags)) := by
  refine ⟨fun h => ?_, fun h t => ?_, fun t => ?_⟩
  · have h' : topTag ∈ p.can_declassify_confidentiality_tags := by
      simpa using h
    simp [NodePrivilege.downgrade_label, h']
  · have h' : topTag ∉ p.can_declassify_confidentiality_tags := by
      simpa using h
    simp [NodePrivilege.downgrade_label, h', List.mem_filter]
  · by_cases h' : topTag ∈ p.can_declassify_confidentiality_tags <;>
      simp [NodePrivilege.downgrade_label, h', List.mem_append]

/-! Claim theorems. -/

/-- C2: for every privilege `p` and label `L`, `p.downgrade_label L` has as
confidentiality component `L.C` minus `p`'s declassifiable tags (when `p`
does not hold the top tag) and as integrity component the union of `L.I`
and `p`'s endorsable tags; when `p`'s declassify set contains the top tag
the resulting confidentiality component is empty regardless of `L.C`. -/
theorem downgrade_label_components (p : NodePrivilege) (L : Label) :
    (p.can_declassify_confidentiality_tags.contains topTag = true →
      (p.downgrade_label L).confidentiality_tags = []) ∧
    (p.can_declassify_confidentiality_tags.contains topTag = false →
      ∀ t : Tag, t ∈ (p.downgrade_label L).confidentiality_tags ↔
        (t ∈ L.confidentiality_tags ∧
          t ∉ p.can_declassify_confidentiality_tags)) ∧
    (∀ t : Tag, t ∈ (p.downgrade_label L).integrity_tags ↔
      (t ∈ L.integrity_tags ∨ t ∈ p.can_endorse_integrity_tags)) :=
  downgrade_label_mem p L

/-- Witness for C2: evaluates the components theorem at concrete
privileges and labels, in both the top and the non-top case. -/
theorem downgrade_label_components_witness :
    (NodePrivilege.downgrade_label ⟨[topTag], [5]⟩ ⟨[1, 2], [3]⟩).confidentiality_tags = [] ∧
    ((1 : Tag) ∈ (NodePrivilege.downgrade_label ⟨[1], []⟩ ⟨[1, 2], [3]⟩).confidentiality_tags ↔
      ((1 : Tag) ∈ [1, 2] ∧ (1 : Tag) ∉ [1])) ∧
    ((5 : Tag) ∈ (NodePrivilege.downgrade_label ⟨[topTag], [5]⟩ ⟨[1, 2], [3]⟩).integrity_tags ↔
      ((5 : Tag) ∈ [3] ∨ (5 : Tag) ∈ [5])) :=
  ⟨(downgrade_label_components ⟨[topTag], [5]⟩ ⟨[1, 2], [3]⟩).1 (by decide),
   (downgrade_label_components ⟨[1], []⟩ ⟨[1, 2], [3]⟩).2.1 (by decide) 1,
   (downgrade_label_components ⟨[topTag], [5]⟩ ⟨[1, 2], [3]⟩).2.2 5⟩

/-- C9: for every privilege `p` and label `L`, the downgraded label flows
to `L`: its confidentiality tags are a subset of `L`'s and `L`'s integrity
tags are a subset of its integrity tags; downgrading never moves a label
upward in the lattice. -/
theorem downgrade_label_flows_to_original (p : NodePrivilege) (L : Label) :
    (p.downgrade_label L).flows_to L = true ∧
    tag_subset (p.downgrade_label L).confidentiality_tags
      L.confidentiality_tags = true ∧
    tag_subset L.integrity_tags (p.downgrade_label L).integrity_tags = true := by
  have hc : tag_subset (p.downgrade_label L).confidentiality_tags
      L.confidentiality_tags = true := by
    rw [tag_subset_iff]
    intro t ht
    by_cases htop : topTag ∈ p.can_declassify_confidentiality_tags
    · simp [NodePrivilege.downgrade_label, htop] at ht
    · have hc' : p.can_declassify_confidentiality_tags.contains topTag = false := by
        simpa using htop
      exact (((downgrade_label_mem p L).2.1 hc' t).mp ht).1
  have hi : tag_subset L.integrity_tags
      (p.downgrade_label L).integrity_tags = true := by
    rw [tag_subset_iff]
    intro t ht
    exact ((downgrade_label_mem p L).2.2 t).mpr (Or.inl ht)
  exact ⟨(flows_to_iff _ _).mpr ⟨hc, hi⟩, hc, hi⟩

/-- C1 counterexample: for the node of `rtC1` (public label, may
declassify tag 1), the source label `({1}, {})` and the downgrade flag
Yes, the read check succeeds although the source label does not flow to
the downgraded node label, contradicting the claimed iff. -/
theorem validate_can_read_counterexample :
    validate_can_read_from_label rtC1 ⟨[1], []⟩ .Yes = .ok () ∧
    Label.flows_to ⟨[1], []⟩
      (rtC1.node.privilege.downgrade_label rtC1.node.label) = false := by
  decide

/-- C1 (amended): `validate_can_read_from_label(n, S, d)` succeeds iff
`effective.flows_to(n.label)`, where `effective` is
`n.privilege.downgrade(S)` when `d` is Yes and `S` when `d` is No; when
the check fails the operation returns `ErrPermissionDenied`. -/
theorem validate_can_read_from_label_spec (rt : RT) (S : Label)
    (d : Downgrading) :
    (validate_can_read_from_label rt S d = .ok () ↔
      (get_effective_label rt S d).flows_to (get_node_label rt) = true) ∧
    (validate_can_read_from_label rt S d = .ok () ∨
      validate_can_read_from_label rt S d = .error .ErrPermissionDenied) := by
  unfold validate_can_read_from_label
  by_cases h : (get_effective_label rt S d).flows_to (get_node_label rt) = true
  · simp [h]
  · simp only [Bool.not_eq_true] at h
    simp [h]

/-- Witness for the amended C1: evaluates the read check of `rtC1` via the
iff at a concrete source label. -/
theorem validate_can_read_from_label_spec_witness :
    validate_can_read_from_label rtC1 ⟨[1], []⟩ .Yes = .ok () :=
  (validate_can_read_from_label_spec rtC1 ⟨[1], []⟩ .Yes).1.mpr (by decide)

/-- C3: a read on a valid read handle that passes the IFC check removes
and returns the front message when the queue is non-empty; on an empty
queue it returns `ErrChannelClosed` when the writer count is zero and
`none` when a writer exists, leaving the state (hence the queue)
unchanged in both empty cases. -/
theorem channel_read_spec (rt : RT) (read_handle : Nat) (d : Downgrading)
    (half : ChannelHalf) (c : Channel)
    (hh : abi_to_read_half rt read_handle = .ok half)
    (hc : lookupChannel rt.channels half.channel_id = some c)
    (hv : validate_can_read_from_channel rt half d = .ok ()) :
    (∀ m rest, c.messages = m :: rest →
      ∃ nm rt', channel_read rt read_handle d = (.ok (some nm), rt') ∧
        nm.bytes = m.data ∧ nm.handles.length = m.channels.length ∧
        lookupChannel rt'.channels half.channel_id
          = some { c with messages := rest }) ∧
    (c.messages = [] → c.writer_count = 0 →
      channel_read rt read_handle d = (.error .ErrChannelClosed, rt)) ∧
    (c.messages = [] → 0 < c.writer_count →
      channel_read rt read_handle d = (.ok none, rt)) := by
  have hdir := abi_to_read_half_direction rt read_handle half hh
  have hrc := reader_channel_of_read rt half c hdir hc
  refine ⟨?_, ?_, ?_⟩
  · intro m rest hm
    set rt1 : RT := { rt with channels := updateChannel rt.channels half.channel_id { c with messages := rest } } with hrt1
    rcases hmsg : node_message_from rt1 m with ⟨nm, rt2⟩
    refine ⟨nm, emit rt2 (.MessageDequeued half.channel_id nm.handles),
      ?_, ?_, ?_, ?_⟩
    · simp only [channel_read, hh, hv, hrc, hm, ← hrt1, hmsg]
    · have hb := node_message_from_bytes rt1 m
      rw [hmsg] at hb
      exact hb
    · have hl := node_message_from_handles_length rt1 m
      rw [hmsg] at hl
      exact hl
    · have h2 := node_message_from_channels rt1 m
      rw [hmsg] at h2
      show lookupChannel rt2.channels half.channel_id = _
      rw [h2, hrt1]
      exact lookupChannel_update_self rt.channels half.channel_id c _ hc
  · intro hm hw
    simp [channel_read, hh, hv, hrc, hm, Channel.has_writers, hw]
  · intro hm hw
    simp [channel_read, hh, hv, hrc, hm, Channel.has_writers, hw]

/-- Witness for C3: a read of the two-byte message queued on channel 0 of
`rtW`, through read handle 5. -/
theorem channel_read_spec_witness :
    ∃ nm rt', channel_read (rtW [⟨[1, 2], []⟩] 1 1 []) 5 .No
        = (.ok (some nm), rt') ∧
      nm.bytes = [1, 2] ∧ nm.handles.length = 0 ∧
      lookupChannel rt'.channels 0
        = some { chanW [⟨[1, 2], []⟩] 1 1 [] with messages := [] } :=
  (channel_read_spec (rtW [⟨[1, 2], []⟩] 1 1 []) 5 .No ⟨0, .Read⟩
      (chanW [⟨[1, 2], []⟩] 1 1 []) (by decide) (by decide) (by decide)).1
    ⟨[1, 2], []⟩ [] rfl

/-- C7: a `channel_try_read_message` that resolves and passes the IFC
check reports `NeedsCapacity` with the front message's exact byte and
handle counts, leaving the state unchanged, when either capacity is
insufficient; removes and returns the front message otherwise; and on an
empty queue returns `ErrChannelClosed` when no writers exist and `none`
otherwise. -/
theorem channel_try_read_message_spec (rt : RT) (read_handle : Nat)
    (bytes_capacity handles_capacity : Nat) (d : Downgrading)
    (half : ChannelHalf) (c : Channel)
    (hh : abi_to_read_half rt read_handle = .ok half)
    (hc : lookupChannel rt.channels half.channel_id = some c)
    (hv : validate_can_read_from_channel rt half d = .ok ()) :
    (∀ front rest, c.messages = front :: rest →
      (front.data.length > bytes_capacity
          ∨ front.channels.length > handles_capacity →
        channel_try_read_message rt read_handle bytes_capacity
            handles_capacity d
          = (.ok (some (.NeedsCapacity front.data.length
              front.channels.length)), rt)) ∧
      (front.data.length ≤ bytes_capacity →
        front.channels.length ≤ handles_capacity →
        ∃ nm rt', channel_try_read_message rt read_handle bytes_capacity
            handles_capacity d = (.ok (some (.Success nm)), rt') ∧
          nm.bytes = front.data ∧
          lookupChannel rt'.channels half.channel_id
            = some { c with messages := rest })) ∧
    (c.messages = [] → c.writer_count = 0 →
      channel_try_read_message rt read_handle bytes_capacity
          handles_capacity d = (.error .ErrChannelClosed, rt)) ∧
    (c.messages = [] → 0 < c.writer_count →
      channel_try_read_message rt read_handle bytes_capacity
          handles_capacity d = (.ok none, rt)) := by
  have hdir := abi_to_read_half_direction rt read_handle half hh
  have hrc := reader_channel_of_read rt half c hdir hc
  refine ⟨?_, ?_, ?_⟩
  · intro front rest hm
    constructor
    · intro hcap
      simp [channel_try_read_message, hh, hv, hrc, hm, hcap]
    · intro hb2 hh2
      have hcap : ¬(front.data.length > bytes_capacity
          ∨ front.channels.length > handles_capacity) := by omega
      set rt1 : RT := { rt with channels := updateChannel rt.channels half.channel_id { c with messages := rest } } with hrt1
      rcases hmsg : node_message_from rt1 front with ⟨nm, rt2⟩
      refine ⟨nm, emit rt2 (.MessageDequeued half.channel_id nm.handles),
        ?_, ?_, ?_⟩
      · simp only [channel_try_read_message, hh, hv, hrc, hm, ← hrt1, hmsg,
          if_neg hcap]
      · have hby := node_message_from_bytes rt1 front
        rw [hmsg] at hby
        exact hby
      · have h2 := node_message_from_channels rt1 front
        rw [hmsg] at h2
        show lookupChannel rt2.channels half.channel_id = _
        rw [h2, hrt1]
        exact lookupChannel_update_self rt.channels half.channel_id c _ hc
  · intro hm hw
    simp [channel_try_read_message, hh, hv, hrc, hm, Channel.has_writers, hw]
  · intro hm hw
    simp [channel_try_read_message, hh, hv, hrc, hm, Channel.has_writers, hw]

/-- Witness for C7: the spec's capacity probe, a seven-byte two-handle
message probed with capacities (4, 4) on `rtW`. -/
theorem channel_try_read_message_spec_witness :
    channel_try_read_message
        (rtW [⟨[0, 1, 2, 3, 4, 5, 6], [⟨0, .Write⟩, ⟨0, .Read⟩]⟩] 1 1 [])
        5 4 4 .No
      = (.ok (some (.NeedsCapacity 7 2)),
         rtW [⟨[0, 1, 2, 3, 4, 5, 6], [⟨0, .Write⟩, ⟨0, .Read⟩]⟩] 1 1 []) :=
  ((channel_try_read_message_spec
      (rtW [⟨[0, 1, 2, 3, 4, 5, 6], [⟨0, .Write⟩, ⟨0, .Read⟩]⟩] 1 1 [])
      5 4 4 .No ⟨0, .Read⟩
      (chanW [⟨[0, 1, 2, 3, 4, 5, 6], [⟨0, .Write⟩, ⟨0, .Read⟩]⟩] 1 1 [])
      (by decide) (by decide) (by decide)).1
    ⟨[0, 1, 2, 3, 4, 5, 6], [⟨0, .Write⟩, ⟨0, .Read⟩]⟩ [] rfl).1
    (by decide)

/-- C4: `wait_on_channels` returns `ErrTerminated` when the Runtime is
terminating; otherwise (in a state where every resolved reader's channel
exists, as the `Arc` back-references guarantee) its status vector is in
1-1 positional correspondence with `read_handles`, every handle that does
not resolve to a read half keeps `InvalidChannel` in its slot, and the
call returns without parking whenever some valid channel's status differs
from `NotReady`, or `read_handles` is empty, or some handle was
invalid. -/
theorem wait_on_channels_spec (rt : RT) (read_handles : List Nat)
    (d : Downgrading) (token : Nat)
    (hwf : ∀ p ∈ resolve_readers rt read_handles 0,
      (lookupChannel rt.channels (ChannelHalf.channel_id p.2)).isSome
        = true) :
    (rt.terminating = true →
      wait_on_channels rt read_handles d token
        = (.result (.error .ErrTerminated), rt)) ∧
    (rt.terminating = false →
      ∃ sts,
        ((wait_on_channels rt read_handles d token).1 = .result (.ok sts) ∨
          (wait_on_channels rt read_handles d token).1 = .parked sts) ∧
        sts.length = read_handles.length ∧
        (∀ i, i < read_handles.length →
          (∀ half : ChannelHalf,
            abi_to_read_half rt (read_handles.getD i 0) ≠ .ok half) →
          sts.getD i .InvalidChannel = .InvalidChannel) ∧
        ((read_handles = [] ∨
          (∃ i, i < read_handles.length ∧
            ∀ half : ChannelHalf,
              abi_to_read_half rt (read_handles.getD i 0) ≠ .ok half) ∨
          (∃ s ∈ readers_statuses rt
              ((resolve_readers rt read_handles 0).map Prod.snd) d,
            s ≠ .NotReady)) →
          (wait_on_channels rt read_handles d token).1
            = .result (.ok sts))) := by
  constructor
  · intro hterm
    simp [wait_on_channels, hterm]
  · intro hterm
    have hdirAll : ∀ h ∈ (resolve_readers rt read_handles 0).map Prod.snd,
        h.direction = .Read := by
      intro h hm
      rcases List.mem_map.mp hm with ⟨p, hp, hEq⟩
      obtain ⟨_, _, habi⟩ := resolve_readers_pos_mem rt read_handles 0 p hp
      subst hEq
      exact abi_to_read_half_direction rt _ p.2 habi
    have hsomeAll : ∀ h ∈ (resolve_readers rt read_handles 0).map Prod.snd,
        (lookupChannel rt.channels h.channel_id).isSome = true := by
      intro h hm
      rcases List.mem_map.mp hm with ⟨p, hp, hEq⟩
      subst hEq
      exact hwf p hp
    obtain ⟨rt', hreg, hnode, hview⟩ := register_waiters_ok
      ((resolve_readers rt read_handles 0).map Prod.snd) rt token
      hdirAll hsomeAll
    have hstat : readers_statuses rt'
        ((resolve_readers rt read_handles 0).map Prod.snd) d
      = readers_statuses rt
        ((resolve_readers rt read_handles 0).map Prod.snd) d :=
      readers_statuses_congr rt rt' _ d hnode hview
    have heq := wait_on_channels_eq rt read_handles d token rt' hterm hreg
    refine ⟨transcribe read_handles.length
      ((resolve_readers rt read_handles 0).map Prod.fst)
      (readers_statuses rt'
        ((resolve_readers rt read_handles 0).map Prod.snd) d),
      ?_, ?_, ?_, ?_⟩
    · rw [heq]
      split
      · left
        rfl
      · right
        rfl
    · exact transcribe_length _ _ _
    · intro i hi hbad
      apply transcribe_getD_not_mem
      · simp [readers_statuses]
      · intro hmem
        rcases List.mem_map.mp hmem with ⟨p, hp, hpi⟩
        obtain ⟨_, _, habi⟩ := resolve_readers_pos_mem rt read_handles 0 p hp
        rw [Nat.sub_zero, hpi] at habi
        exact hbad p.2 habi
    · intro hcond
      rw [heq]
      have hb : (!((readers_statuses rt'
            ((resolve_readers rt read_handles 0).map Prod.snd) d).all
              (fun s => s = .NotReady))
          || read_handles.isEmpty
          || decide (((resolve_readers rt read_handles 0).map Prod.snd).length
              ≠ read_handles.length)) = true := by
        rcases hcond with hnil | ⟨i, hi, hbad⟩ | ⟨s, hs, hsne⟩
        · subst hnil
          simp
        · have hlt := resolve_readers_length_lt rt read_handles 0 i hi hbad
          simp only [Bool.or_eq_true, decide_eq_true_eq]
          right
          simp only [List.length_map]
          omega
        · rw [← hstat] at hs
          simp only [Bool.or_eq_true, Bool.not_eq_true']
          left
          left
          rcases hall : (readers_statuses rt'
              ((resolve_readers rt read_handles 0).map Prod.snd) d).all
                (fun s => s = .NotReady) with _ | _
          · rfl
          · rw [List.all_eq_true] at hall
            have := hall s hs
            simp at this
            exact absurd this hsne
      rw [if_pos hb]

/-- Witness for C4: waiting on the single read handle 5 of `rtW`, whose
channel holds a message, returns without parking with a one-slot status
vector. -/
theorem wait_on_channels_spec_witness :
    ∃ sts, (wait_on_channels (rtW [⟨[1, 2], []⟩] 1 1 []) [5] .No 9).1
        = .result (.ok sts) ∧ sts.length = 1 := by
  obtain ⟨sts, _, hlen, _, hready⟩ :=
    (wait_on_channels_spec (rtW [⟨[1, 2], []⟩] 1 1 []) [5] .No 9
      (by decide)).2 rfl
  exact ⟨sts, hready (Or.inr (Or.inr (by decide))), hlen⟩

/-- C5: `channel_create` fails with `ErrTerminated` when the Runtime is
terminating, fails with `ErrPermissionDenied` unless the caller may write
both to the public-untrusted label and to the requested label, and on
success allocates a fresh channel under the next channel id and returns a
write handle and a distinct read handle, both installed in the caller's
handle table and mapping to the write half and the read half of that new
channel. -/
theorem channel_create_spec (rt : RT) (label : Label) (d : Downgrading) :
    (rt.terminating = true →
      (channel_create rt label d).1 = .error .ErrTerminated) ∧
    (rt.terminating = false →
      ¬(validate_can_write_to_label rt Label.public_untrusted d = .ok ()
          ∧ validate_can_write_to_label rt label d = .ok ()) →
      (channel_create rt label d).1 = .error .ErrPermissionDenied) ∧
    (rt.terminating = false →
      validate_can_write_to_label rt Label.public_untrusted d = .ok () →
      validate_can_write_to_label rt label d = .ok () →
      ∃ w r, (channel_create rt label d).1 = .ok (w, r) ∧ w ≠ r ∧
        lookupHandle (channel_create rt label d).2.node.abi_handles w
          = some ⟨rt.next_channel_id, .Write⟩ ∧
        lookupHandle (channel_create rt label d).2.node.abi_handles r
          = some ⟨rt.next_channel_id, .Read⟩ ∧
        lookupChannel (channel_create rt label d).2.channels rt.next_channel_id
          = some { label := label, messages := [], reader_count := 1,
                   writer_count := 1, waiters := [] } ∧
        (channel_create rt label d).2.next_channel_id
          = rt.next_channel_id + 1) := by
  refine ⟨fun hterm => ?_, fun hterm hnot => ?_, fun hterm h1 h2 => ?_⟩
  · simp [channel_create, hterm]
  · rcases validate_can_write_ok_or_denied rt Label.public_untrusted d
        with hp | hp
    · rcases validate_can_write_ok_or_denied rt label d with hl | hl
      · exact absurd ⟨hp, hl⟩ hnot
      · simp [channel_create, hterm, hp, hl]
    · simp [channel_create, hterm, hp]
  · have hne : fresh_abi_handle_value
        ((fresh_abi_handle_value rt.node.abi_handles,
          (⟨rt.next_channel_id, .Write⟩ : ChannelHalf))
            :: rt.node.abi_handles)
        ≠ fresh_abi_handle_value rt.node.abi_handles :=
      fresh_abi_handle_value_cons_ne _ _ _
    refine ⟨fresh_abi_handle_value rt.node.abi_handles,
      fresh_abi_handle_value
        ((fresh_abi_handle_value rt.node.abi_handles,
          (⟨rt.next_channel_id, .Write⟩ : ChannelHalf))
            :: rt.node.abi_handles),
      ?_, fun hEq => hne hEq.symm, ?_, ?_, ?_, ?_⟩
    · simp [channel_create, hterm, h1, h2, new_abi_handle, emit]
    · simp [channel_create, hterm, h1, h2, new_abi_handle, emit,
        lookupHandle, hne]
    · simp [channel_create, hterm, h1, h2, new_abi_handle, emit,
        lookupHandle]
    · simp [channel_create, hterm, h1, h2, new_abi_handle, emit,
        lookupChannel]
    · simp [channel_create, hterm, h1, h2, new_abi_handle, emit]

/-- Witness for C5: creating a public channel from `rtW` yields the fresh
handle pair (7, 8) onto channel 1. -/
theorem channel_create_spec_witness :
    ∃ w r, (channel_create (rtW [] 1 1 []) Label.public_untrusted .No).1
        = .ok (w, r) ∧ w ≠ r ∧
      lookupHandle (channel_create (rtW [] 1 1 [])
          Label.public_untrusted .No).2.node.abi_handles w
        = some ⟨(rtW [] 1 1 []).next_channel_id, .Write⟩ ∧
      lookupHandle (channel_create (rtW [] 1 1 [])
          Label.public_untrusted .No).2.node.abi_handles r
        = some ⟨(rtW [] 1 1 []).next_channel_id, .Read⟩ ∧
      lookupChannel (channel_create (rtW [] 1 1 [])
          Label.public_untrusted .No).2.channels
          (rtW [] 1 1 []).next_channel_id
        = some { label := Label.public_untrusted, messages := [],
                 reader_count := 1, writer_count := 1, waiters := [] } ∧
      (channel_create (rtW [] 1 1 [])
          Label.public_untrusted .No).2.next_channel_id
        = (rtW [] 1 1 []).next_channel_id + 1 :=
  (channel_create_spec (rtW [] 1 1 []) Label.public_untrusted .No).2.2
    rfl (by decide) (by decide)

/-- C6: a write on a resolved write half that passes the IFC check and
whose embedded handles all translate fails with `ErrChannelClosed` when
the channel's reader count is zero; otherwise it appends the message at
the back of the channel's queue and wakes every waiter registered on the
channel (the `MessageEnqueued` introspection event follows in both
cases). -/
theorem channel_write_spec (rt : RT) (write_handle : Nat)
    (node_msg : NodeMessage) (d : Downgrading) (half : ChannelHalf)
    (c : Channel) (msg : Message)
    (hh : abi_to_write_half rt write_handle = .ok half)
    (hv : validate_can_write_to_channel rt half d = .ok ())
    (hm : message_from rt node_msg = .ok msg)
    (hc : lookupChannel rt.channels half.channel_id = some c) :
    (c.reader_count = 0 →
      channel_write rt write_handle node_msg d
        = (.error .ErrChannelClosed,
           emit rt (.MessageEnqueued half.channel_id node_msg.handles))) ∧
    (0 < c.reader_count →
      channel_write rt write_handle node_msg d
        = (.ok (),
           emit { rt with
               channels := updateChannel rt.channels half.channel_id { c with messages := c.messages ++ [msg] },
               events := rt.events ++ c.waiters.map Event.WaiterWoken }
             (.MessageEnqueued half.channel_id node_msg.handles))) := by
  have hdir := abi_to_write_half_direction rt write_handle half hh
  have hwc := writer_channel_of_write rt half c hdir hc
  constructor
  · intro hr
    have hread : c.has_readers = false := by
      simp [Channel.has_readers, hr]
    simp [channel_write, hh, hv, hm, hwc, hread]
  · intro hr
    have hread : c.has_readers = true := by
      simp [Channel.has_readers]
      omega
    simp [channel_write, hh, hv, hm, hwc, hread, wake_waiters, emit]

/-- Witness for C6: a write through handle 6 of `rtW` onto a channel with
one reader and waiters 3 and 4 appends the message and wakes both. -/
theorem channel_write_spec_witness :
    channel_write (rtW [] 1 1 [3, 4]) 6 ⟨[9], []⟩ .No
      = (.ok (),
         emit { rtW [] 1 1 [3, 4] with
             channels := updateChannel (rtW [] 1 1 [3, 4]).channels 0 { chanW [] 1 1 [3, 4] with messages := [⟨[9], []⟩] },
             events := [.WaiterWoken 3, .WaiterWoken 4] }
           (.MessageEnqueued 0 [])) :=
  (channel_write_spec (rtW [] 1 1 [3, 4]) 6 ⟨[9], []⟩ .No ⟨0, .Write⟩
      (chanW [] 1 1 [3, 4]) ⟨[9], []⟩ (by decide) (by decide) (by decide)
      (by decide)).2 (by decide)

/-- C10: `channel_write` emits a `MessageEnqueued` introspection event
whenever handle resolution, the IFC check and embedded-handle translation
all succeed, even when the enqueue itself fails with `ErrChannelClosed`;
failures before that point leave the state (hence the event queue)
unchanged. -/
theorem channel_write_event_spec (rt : RT) (write_handle : Nat)
    (node_msg : NodeMessage) (d : Downgrading) :
    (∀ half msg, abi_to_write_half rt write_handle = .ok half →
      validate_can_write_to_channel rt half d = .ok () →
      message_from rt node_msg = .ok msg →
      count_enqueued (channel_write rt write_handle node_msg d).2.events
        = count_enqueued rt.events + 1) ∧
    (∀ e, abi_to_write_half rt write_handle = .error e →
      (channel_write rt write_handle node_msg d).2 = rt) ∧
    (∀ half e, abi_to_write_half rt write_handle = .ok half →
      validate_can_write_to_channel rt half d = .error e →
      (channel_write rt write_handle node_msg d).2 = rt) ∧
    (∀ half e, abi_to_write_half rt write_handle = .ok half →
      validate_can_write_to_channel rt half d = .ok () →
      message_from rt node_msg = .error e →
      (channel_write rt write_handle node_msg d).2 = rt) := by
  refine ⟨fun half msg hh hv hm => ?_, fun e he => ?_,
    fun half e hh hv => ?_, fun half e hh hv hm => ?_⟩
  · rcases hwc : writer_channel rt half with e | c
    · simp [channel_write, hh, hv, hm, hwc, emit, count_enqueued_append,
        count_enqueued, is_message_enqueued]
    · by_cases hr : c.has_readers = true
      · simp [channel_write, hh, hv, hm, hwc, hr, emit, wake_waiters,
          count_enqueued_append, count_enqueued_wakes, count_enqueued,
          is_message_enqueued]
      · have hr' : c.has_readers = false := by
          simpa using hr
        simp [channel_write, hh, hv, hm, hwc, hr', emit,
          count_enqueued_append, count_enqueued, is_message_enqueued]
  · simp [channel_write, he]
  · simp [channel_write, hh, hv]
  · simp [channel_write, hh, hv, hm]

/-- Witness for C10: on a reader-less channel the write fails with
`ErrChannelClosed` and yet the `MessageEnqueued` event count rises by
one. -/
theorem channel_write_event_spec_witness :
    count_enqueued (channel_write (rtW [] 0 1 [3]) 6 ⟨[9], []⟩ .No).2.events
      = count_enqueued (rtW [] 0 1 [3]).events + 1 ∧
    (channel_write (rtW [] 0 1 [3]) 6 ⟨[9], []⟩ .No).1
      = .error .ErrChannelClosed :=
  ⟨(channel_write_event_spec (rtW [] 0 1 [3]) 6 ⟨[9], []⟩ .No).1
      ⟨0, .Write⟩ ⟨[9], []⟩ (by decide) (by decide) (by decide),
   by decide⟩

/-- C8: `channel_status` on a read half reports a failing IFC check as the
successful status `PermissionDenied`; otherwise it reports `ReadReady`
when a message is queued, `Orphaned` when the queue is empty with a zero
writer count, and `NotReady` when the queue is empty but writers exist. -/
theorem channel_status_spec (rt : RT) (half : ChannelHalf) (d : Downgrading)
    (c : Channel)
    (hdir : half.direction = .Read)
    (hc : lookupChannel rt.channels half.channel_id = some c) :
    (validate_can_read_from_channel rt half d = .error .ErrPermissionDenied →
      channel_status rt half d = .ok .PermissionDenied) ∧
    (validate_can_read_from_channel rt half d = .ok () →
      c.messages ≠ [] → channel_status rt half d = .ok .ReadReady) ∧
    (validate_can_read_from_channel rt half d = .ok () →
      c.messages = [] → c.writer_count = 0 →
      channel_status rt half d = .ok .Orphaned) ∧
    (validate_can_read_from_channel rt half d = .ok () →
      c.messages = [] → 0 < c.writer_count →
      channel_status rt half d = .ok .NotReady) := by
  have hrc := reader_channel_of_read rt half c hdir hc
  refine ⟨fun hpd => ?_, fun hv hm => ?_, fun hv hm hw => ?_,
    fun hv hm hw => ?_⟩
  · simp [channel_status, hpd]
  · rcases hx : c.messages with _ | ⟨m, rest⟩
    · exact absurd hx hm
    · simp [channel_status, hv, hrc, hx]
  · simp [channel_status, hv, hrc, hm, Channel.has_writers, hw]
  · simp [channel_status, hv, hrc, hm, Channel.has_writers, hw]

/-- Witness for C8: the status of channel 0 as seen from `rtW` in a
permission-denied configuration (secret channel label) and in the three
permitted configurations. -/
theorem channel_status_spec_witness :
    channel_status { rtW [] 1 1 [] with
        channels := [(0, { chanW [] 1 1 [] with
          label := ⟨[1], []⟩ })] } ⟨0, .Read⟩ .No = .ok .PermissionDenied ∧
    channel_status (rtW [⟨[1], []⟩] 1 1 []) ⟨0, .Read⟩ .No = .ok .ReadReady ∧
    channel_status (rtW [] 1 0 []) ⟨0, .Read⟩ .No = .ok .Orphaned ∧
    channel_status (rtW [] 1 1 []) ⟨0, .Read⟩ .No = .ok .NotReady :=
  ⟨(channel_status_spec _ ⟨0, .Read⟩ .No
      ({ chanW [] 1 1 [] with label := ⟨[1], []⟩ }) rfl (by decide)).1
      (by decide),
   (channel_status_spec (rtW [⟨[1], []⟩] 1 1 []) ⟨0, .Read⟩ .No
      (chanW [⟨[1], []⟩] 1 1 []) rfl (by decide)).2.1 (by decide) (by decide),
   (channel_status_spec (rtW [] 1 0 []) ⟨0, .Read⟩ .No
      (chanW [] 1 0 []) rfl (by decide)).2.2.1 (by decide) rfl rfl,
   (channel_status_spec (rtW [] 1 1 []) ⟨0, .Read⟩ .No
      (chanW [] 1 1 []) rfl (by decide)).2.2.2 (by decide) rfl (by decide)⟩

end OakRuntime
